import Mathlib

/-!
Shallow embedding of the StartupValidators backend research pipeline
(src/agent/graph.js, src/services/twitter.js, src/index.js).

Asynchronous code is modelled by explicit state passing; JavaScript
exceptions are modelled with `Except`; `undefined`-able values with
`Option`; wall-clock instants with `Nat` milliseconds.  Timers are
modelled as exact (a `setTimeout(ms)` callback runs exactly `ms`
milliseconds after registration).
-/

namespace StartupValidators

/-! ### JavaScript errors and progress events -/

/-- A JavaScript exception value; `message` is `none` when the thrown value
has no usable `message` property (`err.message` is `undefined`). -/
structure JsError where
  message : Option String
deriving DecidableEq

/-- `err.message?.slice(0, 80) || "unknown error"` from `wrapNode`
(src/agent/graph.js line 78): an absent or empty (truncated) message falls
back to the string "unknown error". -/
def errDesc : Option String → String
  | none => "unknown error"
  | some m => if m.take 80 = "" then "unknown error" else m.take 80

/-- A progress event `{type, msg}` as passed to the event sink.  The
wall-clock `ts` field of the source events is not modelled. -/
structure Event where
  etype : String
  msg : String
deriving DecidableEq

/-- `Except.isOk` as a plain function (a JS promise settles fulfilled or
rejected). -/
def exceptOk {ε α : Type} : Except ε α → Bool
  | Except.ok _ => true
  | Except.error _ => false

/-! ### Rate limiter (src/services/twitter.js lines 15-22) -/

/-- Free-tier pacing interval of the Twitter client: 5600 ms. -/
def interval : Nat := 5600

/-- Release instant of one `throttle()` call entered at `now` with shared
state `nextSlot`: the caller resumes after `Math.max(0, _nextSlot - now)`
milliseconds (truncated `Nat` subtraction models `Math.max(0, a - b)`). -/
def throttleRelease (nextSlot now : Nat) : Nat := now + (nextSlot - now)

/-- The pre-reserved slot written before any suspension:
`_nextSlot = Math.max(now, _nextSlot) + 5600`. -/
def throttleNext (nextSlot now : Nat) : Nat := max now nextSlot + interval

/-- Release instants of a sequence of `throttle()` calls, listed in the order
in which their atomic slot-advance steps execute; `nows` are the respective
`Date.now()` readings at entry. -/
def throttleReleases (nextSlot : Nat) : List Nat → List Nat
  | [] => []
  | now :: rest => throttleRelease nextSlot now :: throttleReleases (throttleNext nextSlot now) rest

/-! ### Fan-out aggregation (src/agent/graph.js lines 99-117) -/

/-- One asynchronous task: how long it takes to settle and what it settles
to. -/
structure AsyncTask (α : Type) where
  duration : Nat
  result : Except JsError α

/-- Outcome of `Promise.allSettled` for one promise. -/
inductive Settled (α : Type) where
  | fulfilled (value : α)
  | rejected (reason : JsError)
deriving DecidableEq

/-- The per-task timeout used for the Tavily searches: 25000 ms
(src/agent/graph.js line 103). -/
def perTaskTimeout : Nat := 25000

/-- `Promise.race([task, timeoutAfter(timeout)])`: the task's own settlement
wins when it arrives strictly before the timer fires; otherwise the race
rejects with `Error("timeout")`. -/
def raceWithTimeout {α : Type} (timeout : Nat) (t : AsyncTask α) : Except JsError α :=
  if t.duration < timeout then t.result else Except.error ⟨some "timeout"⟩

/-- Convert a settled promise outcome to its `allSettled` record. -/
def toSettled {α : Type} : Except JsError α → Settled α
  | Except.ok v => Settled.fulfilled v
  | Except.error e => Settled.rejected e

/-- `Promise.allSettled(tasks.map(t => Promise.race([t, timer])))`: one
envelope per task, in input order. -/
def gatherAll {α : Type} (timeout : Nat) (tasks : List (AsyncTask α)) : List (Settled α) :=
  tasks.map fun t => toSettled (raceWithTimeout timeout t)

/-- Instant at which one raced task settles: its own duration, capped by the
timeout timer. -/
def settleTime {α : Type} (timeout : Nat) (t : AsyncTask α) : Nat := min t.duration timeout

/-- Whether a settled envelope records a failure. -/
def isRejected {α : Type} : Settled α → Bool
  | Settled.rejected _ => true
  | Settled.fulfilled _ => false

/-- Number of failure envelopes in an `allSettled` result. -/
def failedCount {α : Type} (l : List (Settled α)) : Nat := l.countP isRejected

/-! ### Tavily web research (src/agent/graph.js lines 84-139) -/

/-- One web search result `{url, title, content}`; a missing URL is modelled
as the empty string (both are falsy to the `!s.url` test). -/
structure Source where
  url : String
  title : String
  content : String
deriving DecidableEq

/-- One `tvly.search` response `{results, answer}`; a missing answer is the
empty string (both are falsy to the `if (r.value.answer)` test). -/
structure SearchResponse where
  results : List Source
  answer : String
deriving DecidableEq

/-- The four Tavily search query templates built from the idea
(src/agent/graph.js lines 87-92). -/
def searchQueries (idea : String) : List String :=
  [ idea ++ " market size TAM startup landscape 2025"
  , idea ++ " competitors alternatives funding investors"
  , idea ++ " customer pain points use cases target market"
  , idea ++ " growth trends industry report" ]

/-- The sources pushed by the fulfilled branch of the result loop
(src/agent/graph.js lines 108-118), concatenated in input order. -/
def fulfilledResults : List (Settled SearchResponse) → List Source
  | [] => []
  | Settled.fulfilled v :: rest => v.results ++ fulfilledResults rest
  | Settled.rejected _ :: rest => fulfilledResults rest

/-- The per-query answers pushed by the same loop: for each fulfilled
response with a truthy `answer`, the string `**query**` + newline + answer. -/
def collectAnswers : List (String × Settled SearchResponse) → List String
  | [] => []
  | (q, Settled.fulfilled v) :: rest =>
    if v.answer = "" then collectAnswers rest
    else ("**" ++ q ++ "**\n" ++ v.answer) :: collectAnswers rest
  | (_, Settled.rejected _) :: rest => collectAnswers rest

/-- `Array.prototype.join(sep)`. -/
def joinSep (sep : String) : List String → String
  | [] => ""
  | [x] => x
  | x :: y :: rest => x ++ sep ++ joinSep sep (y :: rest)

/-- The URL deduplication filter of src/agent/graph.js lines 121-126:
`allSources.filter(s => { if (!s.url || seen.has(s.url)) return false;
seen.add(s.url); return true; })`, with the mutable `seen` set threaded
explicitly through the left-to-right traversal. -/
def dedupSeen (seen : List String) : List Source → List Source
  | [] => []
  | s :: rest =>
    if s.url = "" ∨ s.url ∈ seen then dedupSeen seen rest
    else s :: dedupSeen (s.url :: seen) rest

/-- Deduplication starting from an empty `seen` set. -/
def dedupByUrl (l : List Source) : List Source := dedupSeen [] l

/-- The set of distinct non-empty URLs occurring in a source list. -/
def urlFinset (l : List Source) : Finset String :=
  ((l.map Source.url).filter (fun u => u ≠ "")).toFinset

/-- The web-intel record returned by `runSingleTavilyResearch`
(src/agent/graph.js lines 133-138). -/
structure TavilyData where
  searchResults : List Source
  sources : List Source
  summary : String
  sourceCount : Nat
deriving DecidableEq

/-- `runSingleTavilyResearch` (src/agent/graph.js lines 84-139) as a function
of the settled outcomes of its four raced searches: concatenate the fulfilled
results, deduplicate by URL, keep the first 15 unique sources, join the
per-query answers, and report the number of unique sources. -/
def runSingleTavilyResearch (idea : String) (settled : List (Settled SearchResponse)) :
    TavilyData :=
  let allSources := fulfilledResults settled
  let uniqueSources := dedupByUrl allSources
  let answers := collectAnswers ((searchQueries idea).zip settled)
  { searchResults := []
  , sources := uniqueSources.take 15
  , summary := joinSep "\n\n" answers
  , sourceCount := uniqueSources.length }

/-! ### Prefetch scheduler (src/agent/graph.js lines 71, 168-173, 400-412) -/

/-- The shared `tavilyPrefetchPromise` variable of one `createResearchGraph`
call: `handle` is the memoised settlement of the started promise (a settled
JS promise never re-runs its executor), `launches` counts how many times
`runSingleTavilyResearch` has been executed. -/
structure PrefetchState where
  handle : Option (Except JsError TavilyData)
  launches : Nat

/-- The guarded start inside `planQueries` (src/agent/graph.js lines
169-172): `if (!tavilyPrefetchPromise) tavilyPrefetchPromise =
runSingleTavilyResearch(state.idea)`. -/
def startPrefetch (task : Except JsError TavilyData) (s : PrefetchState) : PrefetchState :=
  if s.handle.isSome then s
  else { handle := some task, launches := s.launches + 1 }

/-- The join inside `tavilyResearch` (src/agent/graph.js lines 405-407):
`tavilyPrefetchPromise ? await tavilyPrefetchPromise : await
runSingleTavilyResearch(state.idea)`.  Awaiting a settled promise returns its
memoised settlement; with no handle the task runs afresh (and is not
stored). -/
def joinPrefetch (task : Except JsError TavilyData) (s : PrefetchState) :
    Except JsError TavilyData × PrefetchState :=
  match s.handle with
  | some r => (r, s)
  | none => (task, { s with launches := s.launches + 1 })

/-! ### Run state and stage payload shapes (src/agent/graph.js lines 28-39) -/

/-- A tweet as carried through the pipeline state; the payload detail beyond
its text is irrelevant to every merged fallback shape. -/
structure Tweet where
  text : String
deriving DecidableEq

/-- A trending topic. -/
structure Trend where
  name : String
deriving DecidableEq

/-- A counted hashtag. -/
structure Hashtag where
  tag : String
  count : Nat
deriving DecidableEq

/-- A counted keyword. -/
structure Keyword where
  word : String
  count : Nat
deriving DecidableEq

/-- The sentiment percentages record. -/
structure Sentiment where
  positive : Int
  negative : Int
  neutral : Int
deriving DecidableEq

/-- The `trendsData` channel value (src/agent/graph.js lines 221-227). -/
structure TrendsData where
  worldwideCount : Nat
  usaCount : Nat
  matched : List Trend
  allTrends : List Trend
  hashtags : List Hashtag
  keywords : List Keyword
  contextTweets : List Tweet
  topTweets : List Tweet
  insights : String
deriving DecidableEq

/-- The `demandData` channel value (src/agent/graph.js lines 277-282).  The
average-engagement fields are floating point in the source; only their
integral degraded values (0) matter to any merged fallback shape, so they are
carried as integers. -/
structure DemandData where
  recentCount : Nat
  monthCount : Nat
  topTweets : List Tweet
  competitorTweets : List Tweet
  sentiment : Sentiment
  avgLikes : Int
  avgRt : Int
  demandScore : Nat
  insights : String
deriving DecidableEq

/-- An early-adopter record. -/
structure Adopter where
  username : String
deriving DecidableEq

/-- The `adopterData` channel value (src/agent/graph.js line 320). -/
structure AdopterData where
  count : Nat
  users : List Adopter
  allPainTweets : Nat
  insights : String
deriving DecidableEq

/-- An investor record. -/
structure Investor where
  username : String
deriving DecidableEq

/-- The `funderData` channel value (src/agent/graph.js lines 365-374). -/
structure FunderData where
  count : Nat
  profileInvestors : List Investor
  tweetInvestors : List Investor
  insights : String
deriving DecidableEq

/-- The `communityData` channel value (src/agent/graph.js line 395). -/
structure CommunityData where
  tweets : List Tweet
  count : Nat
deriving DecidableEq

/-- One recommended funder entry of a verdict. -/
structure FunderRec where
  name : String
  twitter : String
  focus : String
  why : String
deriving DecidableEq

/-- The verdict scorecard (src/agent/graph.js lines 471-499 and 528-543). -/
structure Verdict where
  score : Nat
  headline : String
  why_it_works : String
  why_it_fails : String
  strengths : List String
  weaknesses : List String
  issues : List String
  best_points : List String
  idea_changes : List String
  new_additions : List String
  target_customer : String
  go_to_market : String
  competition_risk : String
  timing : String
  market_size : String
  key_insight : String
  red_flags : List String
  recommendation : String
  investor_readiness : String
  next_actions : List String
  top_funders : List FunderRec
  web_insights : String
deriving DecidableEq

/-- The `queries` channel value: a flat JSON object of string fields (the
keys are whatever the parsed LLM response contains; the fallback plan has the
seven fixed keys). -/
abbrev QueryPlan := List (String × String)

/-- `fallbackQueries` (src/agent/graph.js lines 56-66). -/
def fallbackQueries (idea : String) : QueryPlan :=
  [ ("trend_scan", idea ++ " -is:retweet lang:en")
  , ("demand_recent", idea ++ " lang:en")
  , ("demand_top", idea ++ " lang:en")
  , ("adopter_pain", idea ++ " (wish OR struggling OR frustrated OR \"looking for\" OR \"need a\") lang:en -is:retweet")
  , ("investor_search", idea ++ " investor")
  , ("competitor_search", idea ++ " alternative OR competitor lang:en")
  , ("community_query", idea) ]

/-- The LangGraph run state: one channel per pipeline concern, each with
reducer `(_, y) => y` (replacement) and default `null` / `""`
(src/agent/graph.js lines 28-39). -/
structure RunState where
  idea : String
  description : String
  queries : Option QueryPlan
  trendsData : Option TrendsData
  demandData : Option DemandData
  adopterData : Option AdopterData
  funderData : Option FunderData
  communityData : Option CommunityData
  tavilyData : Option TavilyData
  verdict : Option Verdict
deriving DecidableEq

/-- The channel defaults applied to the invocation input
`{idea, description}` (src/index.js lines 247-250). -/
def initState (idea description : String) : RunState :=
  { idea := idea
  , description := description
  , queries := none
  , trendsData := none
  , demandData := none
  , adopterData := none
  , funderData := none
  , communityData := none
  , tavilyData := none
  , verdict := none }

/-- JS `x || d` for an optional number `x`: both `undefined` and `0` are
falsy, so both select the default. -/
def jsOrNat : Option Nat → Nat → Nat
  | none, d => d
  | some n, d => if n = 0 then d else n

/-- `fallbackVerdict` (src/agent/graph.js lines 528-543): the context-free
fallback scorecard; its score is `state.demandData?.demandScore || 50`. -/
def fallbackVerdict (state : RunState) : Verdict :=
  { score := jsOrNat (state.demandData.map DemandData.demandScore) 50
  , headline := "Research complete — manual review recommended"
  , why_it_works := "Twitter data shows market awareness."
  , why_it_fails := "Insufficient data for full analysis."
  , strengths := ["Market conversations exist"]
  , weaknesses := ["Limited data"]
  , issues := ["Need more data"]
  , best_points := ["Conversations happening"]
  , idea_changes := ["Gather more customer feedback"]
  , new_additions := ["Build MVP first"]
  , target_customer := "Early adopters"
  , go_to_market := "Direct outreach"
  , competition_risk := "medium"
  , timing := "perfect"
  , market_size := "Unknown"
  , key_insight := "More research needed"
  , red_flags := ["Limited data"]
  , recommendation := "explore"
  , investor_readiness := "not_ready"
  , next_actions := ["Gather more data", "Interview potential customers"]
  , top_funders := []
  , web_insights := "Web research unavailable" }

/-- The `fetch_trends` fallback patch (src/agent/graph.js lines 548-553). -/
def trendsFallback : TrendsData :=
  { worldwideCount := 0, usaCount := 0, matched := [], allTrends := []
  , hashtags := [], keywords := [], contextTweets := [], topTweets := []
  , insights := "Trend data unavailable due to API/runtime failure." }

/-- The `demand_check` fallback patch (src/agent/graph.js lines 554-560). -/
def demandFallback : DemandData :=
  { recentCount := 0, monthCount := 0, topTweets := [], competitorTweets := []
  , sentiment := { positive := 0, negative := 0, neutral := 100 }
  , avgLikes := 0, avgRt := 0, demandScore := 0
  , insights := "Demand data unavailable due to API/runtime failure." }

/-- The `adopter_search` fallback patch (src/agent/graph.js lines 561-563). -/
def adopterFallback : AdopterData :=
  { count := 0, users := [], allPainTweets := 0
  , insights := "Adopter data unavailable due to API/runtime failure." }

/-- The `funder_search` fallback patch (src/agent/graph.js lines 564-566). -/
def funderFallback : FunderData :=
  { count := 0, profileInvestors := [], tweetInvestors := []
  , insights := "Funder data unavailable due to API/runtime failure." }

/-- The `community_research` fallback patch (src/agent/graph.js lines 567-569). -/
def communityFallback : CommunityData := { tweets := [], count := 0 }

/-- The `tavily_research` fallback patch (src/agent/graph.js lines 570-572). -/
def tavilyFallback : TavilyData :=
  { searchResults := [], sources := [], summary := "", sourceCount := 0 }

/-! ### The fault-isolating wrapper and the eight-node pipeline
(src/agent/graph.js lines 69-82 and 546-585) -/

/-- `wrapNode` (src/agent/graph.js lines 73-82): run the node body; on any
thrown error, emit one warning event and return the fallback patch instead.
The returned event list holds the events the wrapper itself emits (the node
body's own telemetry lives outside this model). -/
def wrapNode {α : Type} (name : String) (fn : RunState → Except JsError α)
    (fallbackFactory : RunState → α) (state : RunState) : α × List Event :=
  match fn state with
  | Except.ok patch => (patch, [])
  | Except.error err =>
    (fallbackFactory state,
      [{ etype := "warn"
       , msg := "  ⚠ " ++ name ++ " failed: " ++ errDesc err.message ++
           " — continuing with partial data" }])

/-- The external-world-dependent bodies of the eight graph nodes: each body
performs LLM/API calls, so its outcome — a thrown error, or the data object
it returns for its own channel — is a parameter of the model.  What is fixed
by the source is which channel each node writes, the wrapper around it, and
its fallback patch. -/
structure StageBehaviors where
  planQueries : RunState → Except JsError QueryPlan
  fetchTrends : RunState → Except JsError TrendsData
  demandCheck : RunState → Except JsError DemandData
  adopterSearch : RunState → Except JsError AdopterData
  funderSearch : RunState → Except JsError FunderData
  communityResearch : RunState → Except JsError CommunityData
  tavilyResearch : RunState → Except JsError TavilyData
  geminiSynthesis : RunState → Except JsError Verdict

/-- The compiled linear graph (src/agent/graph.js lines 546-585): the eight
wrapped nodes run in edge order, each node's returned patch merged by
replacing its own channel ("last write wins" reducers). -/
def runPipeline (b : StageBehaviors) (init : RunState) : RunState × List Event :=
  let r1 := wrapNode "Plan queries" b.planQueries (fun s => fallbackQueries s.idea) init
  let s1 : RunState := { init with queries := some r1.1 }
  let r2 := wrapNode "Trends" b.fetchTrends (fun _ => trendsFallback) s1
  let s2 : RunState := { s1 with trendsData := some r2.1 }
  let r3 := wrapNode "Demand" b.demandCheck (fun _ => demandFallback) s2
  let s3 : RunState := { s2 with demandData := some r3.1 }
  let r4 := wrapNode "Adopters" b.adopterSearch (fun _ => adopterFallback) s3
  let s4 : RunState := { s3 with adopterData := some r4.1 }
  let r5 := wrapNode "Funders" b.funderSearch (fun _ => funderFallback) s4
  let s5 : RunState := { s4 with funderData := some r5.1 }
  let r6 := wrapNode "Community" b.communityResearch (fun _ => communityFallback) s5
  let s6 : RunState := { s5 with communityData := some r6.1 }
  let r7 := wrapNode "Web intel" b.tavilyResearch (fun _ => tavilyFallback) s6
  let s7 : RunState := { s6 with tavilyData := some r7.1 }
  let r8 := wrapNode "Synthesis" b.geminiSynthesis (fun s => fallbackVerdict s) s7
  let s8 : RunState := { s7 with verdict := some r8.1 }
  (s8, r1.2 ++ r2.2 ++ r3.2 ++ r4.2 ++ r5.2 ++ r6.2 ++ r7.2 ++ r8.2)

/-- The try/catch chain of `geminiSynthesis` (src/agent/graph.js lines
501-520): the Gemini call-and-parse outcome, then the GPT fallback
call-and-parse outcome, then the context-free `fallbackVerdict`. -/
def synthesisVerdict (geminiOutcome gptOutcome : Except JsError Verdict)
    (state : RunState) : Verdict :=
  match geminiOutcome with
  | Except.ok v => v
  | Except.error _ =>
    match gptOutcome with
    | Except.ok v => v
    | Except.error _ => fallbackVerdict state

/-- Stage outcomes when every external call raises (end-to-end scenario B):
the five LLM-backed Twitter stages throw at their unguarded `llm.invoke`;
`communityResearch` absorbs its only external call (`.catch(() => [])`) and
returns the empty community patch; `tavilyResearch` absorbs its failures via
`Promise.allSettled` and returns the empty web-intel record; synthesis
absorbs both LLM failures and returns the context-free fallback verdict. -/
def scenarioB (e : JsError) : StageBehaviors :=
  { planQueries := fun _ => Except.error e
  , fetchTrends := fun _ => Except.error e
  , demandCheck := fun _ => Except.error e
  , adopterSearch := fun _ => Except.error e
  , funderSearch := fun _ => Except.error e
  , communityResearch := fun _ => Except.ok { tweets := [], count := 0 }
  , tavilyResearch := fun s =>
      Except.ok (runSingleTavilyResearch s.idea (List.replicate 4 (Settled.rejected e)))
  , geminiSynthesis := fun s =>
      Except.ok (synthesisVerdict (Except.error e) (Except.error e) s) }

/-- Stage behaviors in which every node body itself throws. -/
def allThrowBehaviors (e : JsError) : StageBehaviors :=
  { planQueries := fun _ => Except.error e
  , fetchTrends := fun _ => Except.error e
  , demandCheck := fun _ => Except.error e
  , adopterSearch := fun _ => Except.error e
  , funderSearch := fun _ => Except.error e
  , communityResearch := fun _ => Except.error e
  , tavilyResearch := fun _ => Except.error e
  , geminiSynthesis := fun _ => Except.error e }

/-! ### The research endpoint (src/index.js lines 218-260) -/

/-- JS string whitespace, as far as the inputs here use it. -/
def isJsWs (c : Char) : Bool := c = ' ' || c = '\n' || c = '\t' || c = '\r'

/-- `String.prototype.trim()`: strip leading and trailing whitespace. -/
def jsTrim (s : String) : String :=
  String.mk (((s.data.dropWhile isJsWs).reverse.dropWhile isJsWs).reverse)

/-- The input validation of `GET /api/research` (src/index.js line 223):
`!idea || String(idea).trim().length < 3`; `idea` is `none` when the query
parameter is absent. -/
def ideaInvalid : Option String → Bool
  | none => true
  | some s => s = "" || (jsTrim s).length < 3

/-- The 400 response body sent for invalid input. -/
structure ApiError where
  status : Nat
  message : String
deriving DecidableEq

/-- The `GET /api/research` handler (src/index.js lines 218-259): reject
invalid input with a 400 error before the graph is even built; otherwise run
the pipeline on the trimmed inputs and return its final state and the
wrapper-level event stream. -/
def researchHandler (idea : Option String) (description : String)
    (b : StageBehaviors) : Except ApiError (RunState × List Event) :=
  if ideaInvalid idea then
    Except.error { status := 400, message := "Provide a startup idea (min 3 chars)." }
  else
    Except.ok (runPipeline b (initState (jsTrim (idea.getD "")) (jsTrim description)))


/-! ### Query-plan extraction (src/agent/graph.js lines 154-161) -/

/-- The opening brace character, written via its code point. -/
def lbrace : Char := Char.ofNat 123

/-- The closing brace character, written via its code point. -/
def rbrace : Char := Char.ofNat 125

/-- The double-quote character, written via its code point. -/
def dquote : Char := Char.ofNat 34

/-- JSON insignificant whitespace. -/
def isWsChar (c : Char) : Bool := c = ' ' || c = '\n' || c = '\t' || c = '\r'

/-- Drop leading JSON whitespace. -/
def skipWs : List Char → List Char
  | [] => []
  | c :: cs => if isWsChar c then skipWs cs else c :: cs

/-- Read a JSON string body up to the closing quote, returning the body and
the remainder.  Escape sequences are not modelled: the flat query-plan
objects this parser serves contain none. -/
def readStringBody : List Char → Option (List Char × List Char)
  | [] => none
  | c :: cs =>
    if c = dquote then some ([], cs)
    else
      match readStringBody cs with
      | some (body, rest) => some (c :: body, rest)
      | none => none

/-- Parse the members of a flat JSON object of string values, positioned just
after the opening brace; `fuel` bounds the recursion by the input length.
Together with `jsonParseFlatObj` this models the behaviour of the external
`JSON.parse` builtin on the flat string-valued objects the query plan takes;
any other input is a parse failure. -/
def readMembers : Nat → List Char → Option (List (String × String) × List Char)
  | 0, _ => none
  | fuel + 1, cs =>
    match skipWs cs with
    | [] => none
    | c :: cs1 =>
      if c = rbrace then some ([], cs1)
      else if c = dquote then
        match readStringBody cs1 with
        | none => none
        | some (key, cs2) =>
          match skipWs cs2 with
          | ':' :: cs3 =>
            match skipWs cs3 with
            | c4 :: cs4 =>
              if c4 = dquote then
                match readStringBody cs4 with
                | none => none
                | some (val, cs5) =>
                  match skipWs cs5 with
                  | ',' :: cs6 =>
                    match skipWs cs6 with
                    | c8 :: _ =>
                      if c8 = dquote then
                        match readMembers fuel cs6 with
                        | some (restPairs, rest) =>
                          some ((String.mk key, String.mk val) :: restPairs, rest)
                        | none => none
                      else none
                    | [] => none
                  | c7 :: cs7 =>
                    if c7 = rbrace then some ([(String.mk key, String.mk val)], cs7)
                    else none
                  | [] => none
              else none
            | [] => none
          | _ => none
      else none

/-- `JSON.parse` restricted to flat string-valued objects: the whole text, up
to surrounding whitespace, must be one such object. -/
def jsonParseFlatObj (s : String) : Option (List (String × String)) :=
  match skipWs s.data with
  | c :: cs =>
    if c = lbrace then
      match readMembers (cs.length + 1) cs with
      | some (pairs, rest) => if skipWs rest = [] then some pairs else none
      | none => none
    else none
  | [] => none

/-- Index of the first character satisfying `p`. -/
def firstIdxFrom (p : Char → Bool) : List Char → Option Nat
  | [] => none
  | c :: cs => if p c then some 0 else (firstIdxFrom p cs).map (· + 1)

/-- The greedy regex match `resp.content.match(/\{[\s\S]*\}/)` of
src/agent/graph.js line 156: it matches the span from the first opening
brace to the last closing brace, provided that closing brace comes after
that opening brace; otherwise there is no match. -/
def matchBraceSpan (s : String) : Option String :=
  match firstIdxFrom (fun c => c = lbrace) s.data,
      (firstIdxFrom (fun c => c = rbrace) s.data.reverse).map
        (fun k => s.data.length - 1 - k) with
  | some i, some j =>
    if i < j then some (String.mk ((s.data.drop i).take (j - i + 1))) else none
  | _, _ => none

/-- The text handed to `JSON.parse`: the regex match when it exists, the
whole response otherwise (`m ? m[0] : resp.content`). -/
def spanCandidate (respContent : String) : String :=
  match matchBraceSpan respContent with
  | some m => m
  | none => respContent

/-- The query-plan computation of `planQueries` (src/agent/graph.js lines
154-161): JSON-parse the brace-span candidate; on any parse failure fall
back to `fallbackQueries(state.idea)`. -/
def planQueriesParse (respContent idea : String) : QueryPlan :=
  match jsonParseFlatObj (spanCandidate respContent) with
  | some obj => obj
  | none => fallbackQueries idea

/-- Modelled from the spec: the shortest brace-balanced span starting at the
first opening brace ("extract the first balanced JSON object found in the
text"); quote context is ignored, which is exact for texts whose string
literals contain no braces.  Declared only to compare the spec's description
with the source's greedy-regex extraction. -/
def balancedSpanFrom : Nat → List Char → List Char → Option (List Char)
  | _, _, [] => none
  | depth, acc, c :: rest =>
    if c = rbrace then
      if depth = 1 then some (acc ++ [c])
      else balancedSpanFrom (depth - 1) (acc ++ [c]) rest
    else if c = lbrace then balancedSpanFrom (depth + 1) (acc ++ [c]) rest
    else balancedSpanFrom depth (acc ++ [c]) rest

/-- Modelled from the spec: "the first balanced JSON object found in the
text" — scan to the first opening brace and take the shortest balanced span
from it. -/
def firstBalancedObject (s : String) : Option String :=
  match s.data.dropWhile (fun c => ¬ c = lbrace) with
  | [] => none
  | c :: rest => (balancedSpanFrom 1 [c] rest).map String.mk

/-- The concrete planning-LLM response used to separate the two extraction
semantics: two JSON objects with prose between them. -/
def cexText : String := "\x7b\"a\":\"b\"\x7d x \x7b\"c\":\"d\"\x7d"

/-! ### Helper lemmas -/

/-- A `throttle()` call releases at the later of its entry time and the
pre-advance slot. -/
theorem throttleRelease_eq_max (nextSlot now : Nat) :
    throttleRelease nextSlot now = max nextSlot now := by
  unfold throttleRelease
  omega

/-- Every release of a call sequence is at or after the slot value the
sequence started from. -/
theorem throttleReleases_ge_slot (nows : List Nat) :
    ∀ (slot i : Nat) (h : i < (throttleReleases slot nows).length),
      slot ≤ (throttleReleases slot nows).get ⟨i, h⟩ := by
  induction nows with
  | nil =>
    intro slot i h
    simp [throttleReleases] at h
  | cons now rest ih =>
    intro slot i h
    cases i with
    | zero =>
      simp [throttleReleases, throttleRelease_eq_max]
    | succ k =>
      have hk : k < (throttleReleases (throttleNext slot now) rest).length := by
        simpa [throttleReleases] using h
      have := ih (throttleNext slot now) k hk
      have hnext : slot ≤ throttleNext slot now := by
        unfold throttleNext interval
        omega
      calc slot ≤ throttleNext slot now := hnext
        _ ≤ _ := by simpa [throttleReleases] using this

/-- The final state of the pipeline always carries a verdict. -/
theorem runPipeline_verdict_isSome (b : StageBehaviors) (init : RunState) :
    ((runPipeline b init).1.verdict).isSome = true := rfl

/-! ### C1 -/

/-- C1: for every initial state (any idea) and every combination of stage
outcomes — any subset of the eight wrapped nodes failing, including all of
them — `runPipeline` completes and the final state's verdict channel is
non-null: the synthesized verdict when the synthesis node returns, the
fallback verdict when it throws. -/
theorem pipeline_verdict_total (b : StageBehaviors) (init : RunState) :
    ((runPipeline b init).1.verdict).isSome = true :=
  runPipeline_verdict_isSome b init

/-! ### C2 -/

/-- C2: for any two `throttle()` calls on the same limiter state — entered at
arbitrary `Date.now()` readings, in particular arbitrarily close concurrent
ones — the two releases are separated by at least `interval` (5600 ms): each
call advances the shared slot to `max(now, nextSlot) + interval` before its
suspension and resumes once the pre-advance slot value has passed. -/
theorem throttle_release_separation (slot : Nat) (nows : List Nat) (i j : Nat)
    (hij : i < j) (hj : j < (throttleReleases slot nows).length) :
    (throttleReleases slot nows).get ⟨i, lt_trans hij hj⟩ + interval ≤
      (throttleReleases slot nows).get ⟨j, hj⟩ := by
  induction nows generalizing slot i j with
  | nil =>
    simp [throttleReleases] at hj
  | cons now rest ih =>
    cases i with
    | zero =>
      cases j with
      | zero => exact absurd hij (lt_irrefl 0)
      | succ m =>
        have hm : m < (throttleReleases (throttleNext slot now) rest).length := by
          simpa [throttleReleases] using hj
        have hge := throttleReleases_ge_slot rest (throttleNext slot now) m hm
        have h0 : (throttleReleases slot (now :: rest)).get ⟨0, lt_trans hij hj⟩ =
            throttleRelease slot now := rfl
        have hs : (throttleReleases slot (now :: rest)).get ⟨m + 1, hj⟩ =
            (throttleReleases (throttleNext slot now) rest).get ⟨m, hm⟩ := rfl
        rw [h0, hs, throttleRelease_eq_max]
        have : throttleNext slot now = max slot now + interval := by
          unfold throttleNext
          omega
        omega
    | succ k =>
      cases j with
      | zero => exact absurd hij (by omega)
      | succ m =>
        have hm : m < (throttleReleases (throttleNext slot now) rest).length := by
          simpa [throttleReleases] using hj
        have hkm : k < m := by omega
        have := ih (throttleNext slot now) k m hkm hm
        exact this

/-- Witness for C2: two calls entering concurrently at time 0 on a fresh
limiter release 5600 ms apart. -/
theorem throttle_release_separation_witness :
    0 < 1 ∧ 1 < (throttleReleases 0 [0, 0]).length ∧
      (throttleReleases 0 [0, 0]).get ⟨0, by decide⟩ + interval ≤
        (throttleReleases 0 [0, 0]).get ⟨1, by decide⟩ :=
  ⟨by decide, by decide, throttle_release_separation 0 [0, 0] 0 1 (by decide) (by decide)⟩

/-! ### C3 -/

/-- C3: the wrapper around a stage is total — its result type has no error
case, so for every stage body, fallback and state it returns a patch.  When
the body returns a patch, that patch passes through unmodified with no
wrapper event; when the body throws, the wrapper emits exactly one
warning-classed event naming the stage with the truncated error description
and returns the fallback applied to the current state. -/
theorem wrapNode_spec {α : Type} (name : String) (fn : RunState → Except JsError α)
    (fb : RunState → α) (s : RunState) :
    (∀ p, fn s = Except.ok p → wrapNode name fn fb s = (p, [])) ∧
    (∀ e, fn s = Except.error e →
      wrapNode name fn fb s =
        (fb s,
          [{ etype := "warn"
           , msg := "  ⚠ " ++ name ++ " failed: " ++ errDesc e.message ++
               " — continuing with partial data" }])) := by
  constructor
  · intro p hp
    simp [wrapNode, hp]
  · intro e he
    simp [wrapNode, he]

set_option maxRecDepth 8192 in
/-- Witness for C3: a node body throwing `Error("boom")` yields the fallback
patch and the single warning event. -/
theorem wrapNode_spec_witness :
    wrapNode "Demand" (fun _ => Except.error ⟨some "boom"⟩)
        (fun _ => demandFallback) (initState "x" "") =
      (demandFallback,
        [{ etype := "warn"
         , msg := "  ⚠ Demand failed: boom — continuing with partial data" }]) := by
  have h := (wrapNode_spec "Demand" (fun _ => Except.error ⟨some "boom"⟩)
    (fun _ => demandFallback) (initState "x" "")).2 ⟨some "boom"⟩ rfl
  rw [h]
  rfl

/-! ### C4 -/

set_option maxRecDepth 16384 in
/-- Counterexample to C4 as stated: with an idea supplied and every external
call raising, the demand stage's fallback patch carries `demandScore = 0`,
yet the final verdict's score is 50 — `demandScore || 50` treats the degraded
score 0 as falsy — so the verdict score does not equal the degraded demand
score. -/
theorem scenarioB_score_counterexample :
    ((runPipeline (scenarioB ⟨some "network down"⟩)
        (initState "AI meal planner for diabetics" "")).1.demandData
      = some demandFallback) ∧
    demandFallback.demandScore = 0 ∧
    ((runPipeline (scenarioB ⟨some "network down"⟩)
        (initState "AI meal planner for diabetics" "")).1.verdict.map Verdict.score
      = some 50) ∧
    (50 : Nat) ≠ 0 := by
  refine ⟨rfl, rfl, rfl, by decide⟩

/-- C4 amended: when an idea is supplied and every external call raises, the
final verdict equals the deterministic context-free fallback verdict of the
degraded state; its score is 50 — the degraded demand score is 0, which is
falsy, so the `|| 50` default applies — and its recommendation is
"explore". -/
theorem scenarioB_fallback_verdict (idea description : String) (e : JsError) :
    ((runPipeline (scenarioB e) (initState idea description)).1.verdict.map Verdict.score
        = some 50) ∧
    ((runPipeline (scenarioB e) (initState idea description)).1.verdict.map Verdict.recommendation
        = some "explore") ∧
    (∃ s : RunState, s.demandData = some demandFallback ∧
      (runPipeline (scenarioB e) (initState idea description)).1.verdict
          = some (fallbackVerdict s)) := by
  refine ⟨rfl, rfl,
    ⟨{ idea := idea
     , description := description
     , queries := some (fallbackQueries idea)
     , trendsData := some trendsFallback
     , demandData := some demandFallback
     , adopterData := some adopterFallback
     , funderData := some funderFallback
     , communityData := some { tweets := [], count := 0 }
     , tavilyData := some (runSingleTavilyResearch idea (List.replicate 4 (Settled.rejected e)))
     , verdict := none }, rfl, rfl⟩⟩

/-! ### C5 -/

/-- C5: the research endpoint fails — returning a terminal 400 error instead
of a verdict — exactly when the initial input is invalid (idea missing, or
shorter than 3 characters after trimming); the rejection is decided before
any stage runs (it does not depend on any stage behavior), and for valid
input the run never fails on a stage-level failure: whatever the stage
outcomes, it returns a final state, and that state carries a verdict. -/
theorem researchHandler_spec (idea : Option String) (description : String)
    (b : StageBehaviors) :
    (exceptOk (researchHandler idea description b) = true ↔ ideaInvalid idea = false) ∧
    (ideaInvalid idea = true → ∀ b2 : StageBehaviors,
      researchHandler idea description b = researchHandler idea description b2) ∧
    (∀ st evs, researchHandler idea description b = Except.ok (st, evs) →
      st.verdict.isSome = true) := by
  by_cases h : ideaInvalid idea = true
  · refine ⟨?_, ?_, ?_⟩
    · simp [researchHandler, h, exceptOk]
    · intro _ b2
      simp [researchHandler, h]
    · intro st evs heq
      simp [researchHandler, h] at heq
  · have h2 : ideaInvalid idea = false := by
      cases hi : ideaInvalid idea
      · rfl
      · exact absurd hi h
    refine ⟨?_, ?_, ?_⟩
    · simp [researchHandler, h2, exceptOk]
    · intro hcontra
      rw [h2] at hcontra
      exact absurd hcontra (by decide)
    · intro st evs heq
      simp [researchHandler, h2] at heq
      have : st = (runPipeline b (initState (jsTrim (idea.getD "")) (jsTrim description))).1 := by
        rw [heq]
      rw [this]
      exact runPipeline_verdict_isSome b _

/-- Witness for C5: a too-short idea is rejected identically under two
different stage behaviors, and a valid idea yields a verdict even when every
node body throws. -/
theorem researchHandler_spec_witness :
    ideaInvalid (some "ab") = true ∧
    researchHandler (some "ab") "" (allThrowBehaviors ⟨some "x"⟩) =
      researchHandler (some "ab") "" (allThrowBehaviors ⟨none⟩) ∧
    ((runPipeline (allThrowBehaviors ⟨none⟩) (initState "app" "")).1.verdict.isSome = true) :=
  ⟨by decide,
   (researchHandler_spec (some "ab") "" (allThrowBehaviors ⟨some "x"⟩)).2.1 (by decide)
     (allThrowBehaviors ⟨none⟩),
   (researchHandler_spec (some "app") "" (allThrowBehaviors ⟨none⟩)).2.2
     (runPipeline (allThrowBehaviors ⟨none⟩) (initState "app" "")).1
     (runPipeline (allThrowBehaviors ⟨none⟩) (initState "app" "")).2 rfl⟩

/-! ### C6 -/

/-- An envelope is a failure exactly when the raced outcome it wraps is. -/
theorem isRejected_toSettled {α : Type} (r : Except JsError α) :
    isRejected (toSettled r) = !(exceptOk r) := by
  cases r <;> rfl

/-- A fold of `max` over values all bounded by `b` is bounded by `b`. -/
theorem foldr_max_le (l : List Nat) (b : Nat) (h : ∀ x ∈ l, x ≤ b) :
    l.foldr max 0 ≤ b := by
  induction l with
  | nil => simp
  | cons a rest ih =>
    simp only [List.foldr_cons]
    have ha := h a (by simp)
    have hr := ih fun x hx => h x (by simp [hx])
    omega

/-- C6: for every task list, the fan-out aggregation returns exactly one
envelope per task, in input order, with the i-th envelope a function of the
i-th task alone (no cancellation or cross-task interference); the number of
envelopes marked failed equals the number k of tasks whose raced outcome
fails; a task exceeding the 25000 ms per-task timeout is recorded as a
timeout failure; and every raced task — hence the aggregate — settles within
the per-task timeout. -/
theorem gatherAll_spec {α : Type} (tasks : List (AsyncTask α)) (k : Nat) :
    ((gatherAll perTaskTimeout tasks).length = tasks.length) ∧
    (∀ i (h : i < tasks.length) (h2 : i < (gatherAll perTaskTimeout tasks).length),
      (gatherAll perTaskTimeout tasks).get ⟨i, h2⟩ =
        toSettled (raceWithTimeout perTaskTimeout (tasks.get ⟨i, h⟩))) ∧
    (tasks.countP (fun t => !(exceptOk (raceWithTimeout perTaskTimeout t))) = k →
      failedCount (gatherAll perTaskTimeout tasks) = k) ∧
    (∀ i (h : i < tasks.length) (h2 : i < (gatherAll perTaskTimeout tasks).length),
      perTaskTimeout < (tasks.get ⟨i, h⟩).duration →
        (gatherAll perTaskTimeout tasks).get ⟨i, h2⟩ =
          Settled.rejected ⟨some "timeout"⟩) ∧
    ((tasks.map (settleTime perTaskTimeout)).foldr max 0 ≤ perTaskTimeout) := by
  refine ⟨by simp [gatherAll], ?_, ?_, ?_, ?_⟩
  · intro i h h2
    simp [gatherAll]
  · intro hk
    rw [← hk]
    simp only [failedCount, gatherAll, List.countP_map]
    congr 1
    funext t
    simp [Function.comp, isRejected_toSettled]
  · intro i h h2 hd
    have hget : (gatherAll perTaskTimeout tasks).get ⟨i, h2⟩ =
        toSettled (raceWithTimeout perTaskTimeout (tasks.get ⟨i, h⟩)) := by
      simp [gatherAll]
    have hrace : raceWithTimeout perTaskTimeout (tasks.get ⟨i, h⟩) =
        Except.error ⟨some "timeout"⟩ := by
      unfold raceWithTimeout
      rw [if_neg (by omega)]
    rw [hget, hrace]
    rfl
  · refine foldr_max_le _ _ ?_
    intro x hx
    simp only [List.mem_map] at hx
    obtain ⟨t, _, rfl⟩ := hx
    exact min_le_right _ _

/-- Witness for C6: three tasks of which two fail (one rejection, one
timeout) produce three envelopes with two failures; the timed-out task's
envelope is the timeout failure. -/
theorem gatherAll_spec_witness :
    failedCount (gatherAll perTaskTimeout
      [⟨1000, Except.ok 7⟩, ⟨30000, Except.ok 8⟩, ⟨5, Except.error ⟨some "bad"⟩⟩]) = 2 ∧
    (gatherAll perTaskTimeout
      [⟨1000, Except.ok 7⟩, ⟨30000, Except.ok 8⟩, ⟨5, Except.error ⟨some "bad"⟩⟩]).get
        ⟨1, by decide⟩ = Settled.rejected ⟨some "timeout"⟩ :=
  ⟨(gatherAll_spec
      [⟨1000, Except.ok 7⟩, ⟨30000, Except.ok 8⟩, ⟨5, Except.error ⟨some "bad"⟩⟩] 2).2.2.1
      (by decide),
   (gatherAll_spec
      [⟨1000, Except.ok 7⟩, ⟨30000, Except.ok 8⟩, ⟨5, Except.error ⟨some "bad"⟩⟩] 2).2.2.2.1
      1 (by decide) (by decide) (by decide)⟩

/-! ### C9 -/

/-- C9: within one run the prefetched background task is started at most
once — a second start attempt, even with a different task, leaves the state
unchanged and launches nothing — and joining a settled handle is idempotent:
the first join returns the stored settlement, a second join returns the same
value with the state unchanged, and no join re-executes the task. -/
theorem prefetch_start_join_spec (task task2 : Except JsError TavilyData)
    (s : PrefetchState) :
    (startPrefetch task2 (startPrefetch task s) = startPrefetch task s) ∧
    ((startPrefetch task s).launches ≤ s.launches + 1) ∧
    (∀ r, s.handle = some r →
      (joinPrefetch task s).1 = r ∧
      joinPrefetch task2 (joinPrefetch task s).2 = (r, s) ∧
      ((joinPrefetch task2 (joinPrefetch task s).2).2).launches = s.launches) := by
  refine ⟨?_, ?_, ?_⟩
  · cases h : s.handle with
    | some r => simp [startPrefetch, h]
    | none => simp [startPrefetch, h]
  · cases h : s.handle with
    | some r => simp [startPrefetch, h]
    | none => simp [startPrefetch, h]
  · intro r hr
    simp [joinPrefetch, hr]

/-- Witness for C9: joining a handle already settled to the empty web-intel
record twice returns that record both times and leaves the launch count at
its prior value 1. -/
theorem prefetch_start_join_spec_witness :
    (joinPrefetch (Except.ok tavilyFallback)
        { handle := some (Except.ok tavilyFallback), launches := 1 }).1 =
      Except.ok tavilyFallback ∧
    joinPrefetch (Except.error ⟨some "other"⟩)
        (joinPrefetch (Except.ok tavilyFallback)
          { handle := some (Except.ok tavilyFallback), launches := 1 }).2 =
      (Except.ok tavilyFallback,
        { handle := some (Except.ok tavilyFallback), launches := 1 }) ∧
    ((joinPrefetch (Except.error ⟨some "other"⟩)
        (joinPrefetch (Except.ok tavilyFallback)
          { handle := some (Except.ok tavilyFallback), launches := 1 }).2).2).launches = 1 := by
  exact (prefetch_start_join_spec (Except.ok tavilyFallback)
    (Except.error ⟨some "other"⟩)
    { handle := some (Except.ok tavilyFallback), launches := 1 }).2.2
    (Except.ok tavilyFallback) rfl

/-! ### Deduplication lemmas (for C7 and C10) -/

/-- Deduplication yields a sublist of its input: surviving items keep their
original relative order and their first-seen content. -/
theorem dedupSeen_sublist (l : List Source) :
    ∀ seen : List String, List.Sublist (dedupSeen seen l) l := by
  induction l with
  | nil =>
    intro seen
    simp [dedupSeen]
  | cons a rest ih =>
    intro seen
    by_cases h : a.url = "" ∨ a.url ∈ seen
    · simp only [dedupSeen, if_pos h]
      exact (ih seen).trans (List.sublist_cons_self a rest)
    · simp only [dedupSeen, if_neg h]
      exact List.Sublist.cons₂ a (ih (a.url :: seen))

/-- Every survivor of deduplication has a non-empty URL outside the initial
seen set, and is the first input item bearing its URL. -/
theorem dedupSeen_mem_props (l : List Source) :
    ∀ (seen : List String) (s : Source), s ∈ dedupSeen seen l →
      s.url ≠ "" ∧ s.url ∉ seen ∧ l.find? (fun x => x.url == s.url) = some s := by
  induction l with
  | nil =>
    intro seen s hs
    simp [dedupSeen] at hs
  | cons a rest ih =>
    intro seen s hs
    by_cases h : a.url = "" ∨ a.url ∈ seen
    · simp only [dedupSeen, if_pos h] at hs
      obtain ⟨h1, h2, h3⟩ := ih seen s hs
      have hne : (a.url == s.url) = false := by
        rcases h with h | h
        · rw [h]
          exact beq_eq_false_iff_ne.mpr fun hc => h1 hc.symm
        · exact beq_eq_false_iff_ne.mpr fun hc => h2 (hc ▸ h)
      refine ⟨h1, h2, ?_⟩
      rw [List.find?_cons, hne]
      exact h3
    · simp only [dedupSeen, if_neg h] at hs
      push_neg at h
      rcases List.mem_cons.mp hs with rfl | hs2
      · refine ⟨h.1, h.2, ?_⟩
        rw [List.find?_cons]
        simp
      · obtain ⟨h1, h2, h3⟩ := ih (a.url :: seen) s hs2
        have h2a : s.url ∉ seen := fun hc => h2 (List.mem_cons_of_mem _ hc)
        have hne : (a.url == s.url) = false :=
          beq_eq_false_iff_ne.mpr fun hc => h2 (hc ▸ List.mem_cons_self a.url seen)
        refine ⟨h1, h2a, ?_⟩
        rw [List.find?_cons, hne]
        exact h3

/-- A URL occurs among the survivors of deduplication exactly when it is
non-empty, outside the initial seen set, and occurs in the input. -/
theorem dedupSeen_mem_url (l : List Source) :
    ∀ (seen : List String) (u : String),
      u ∈ (dedupSeen seen l).map Source.url ↔
        (u ∉ seen ∧ u ≠ "" ∧ u ∈ l.map Source.url) := by
  induction l with
  | nil =>
    intro seen u
    simp [dedupSeen]
  | cons a rest ih =>
    intro seen u
    by_cases h : a.url = "" ∨ a.url ∈ seen
    · simp only [dedupSeen, if_pos h, List.map_cons, List.mem_cons]
      rw [ih seen u]
      constructor
      · rintro ⟨h1, h2, h3⟩
        exact ⟨h1, h2, Or.inr h3⟩
      · rintro ⟨h1, h2, h3 | h3⟩
        · subst h3
          rcases h with h | h
          · exact absurd h h2
          · exact absurd h h1
        · exact ⟨h1, h2, h3⟩
    · simp only [dedupSeen, if_neg h, List.map_cons, List.mem_cons]
      rw [ih (a.url :: seen) u]
      push_neg at h
      constructor
      · rintro (rfl | ⟨h1, h2, h3⟩)
        · exact ⟨h.2, h.1, Or.inl rfl⟩
        · have h1a : u ∉ seen := fun hc => h1 (List.mem_cons_of_mem _ hc)
          exact ⟨h1a, h2, Or.inr h3⟩
      · rintro ⟨h1, h2, h3 | h3⟩
        · exact Or.inl h3
        · by_cases hu : u = a.url
          · exact Or.inl hu
          · refine Or.inr ⟨?_, h2, h3⟩
            intro hc
            exact (List.mem_cons.mp hc).elim hu h1
    
/-- The survivors of deduplication carry pairwise distinct URLs. -/
theorem dedupSeen_nodup (l : List Source) :
    ∀ seen : List String, ((dedupSeen seen l).map Source.url).Nodup := by
  induction l with
  | nil =>
    intro seen
    simp [dedupSeen]
  | cons a rest ih =>
    intro seen
    by_cases h : a.url = "" ∨ a.url ∈ seen
    · simp only [dedupSeen, if_pos h]
      exact ih seen
    · simp only [dedupSeen, if_neg h, List.map_cons]
      refine List.nodup_cons.mpr ⟨?_, ih (a.url :: seen)⟩
      intro hc
      have := (dedupSeen_mem_url rest (a.url :: seen) a.url).mp hc
      exact this.1 (List.mem_cons_self _ _)

/-- Counting helper: inserting a fresh-to-`S` element before subtracting. -/
theorem card_insert_sdiff (u : String) (A S : Finset String) (hu : u ∉ S) :
    ((insert u A) \ S).card = (A \ insert u S).card + 1 := by
  have h1 : (insert u A) \ S = insert u (A \ S) := by
    ext x
    simp only [Finset.mem_sdiff, Finset.mem_insert]
    constructor
    · rintro ⟨hx | hx, hxs⟩
      · exact Or.inl hx
      · exact Or.inr ⟨hx, hxs⟩
    · rintro (rfl | ⟨hx, hxs⟩)
      · exact ⟨Or.inl rfl, hu⟩
      · exact ⟨Or.inr hx, hxs⟩
  have h2 : A \ insert u S = (A \ S).erase u := by
    ext x
    simp only [Finset.mem_sdiff, Finset.mem_insert, Finset.mem_erase]
    tauto
  have h3 : insert u (A \ S) = insert u ((A \ S).erase u) := by
    by_cases hm : u ∈ A \ S
    · rw [Finset.insert_erase hm, Finset.insert_eq_self.mpr hm]
    · rw [Finset.erase_eq_of_not_mem hm]
  rw [h1, h2, h3, Finset.card_insert_of_not_mem (Finset.not_mem_erase _ _)]

/-- The number of survivors of deduplication is the number of distinct
non-empty input URLs outside the initial seen set. -/
theorem dedupSeen_length (l : List Source) :
    ∀ seen : List String,
      (dedupSeen seen l).length = (urlFinset l \ seen.toFinset).card := by
  induction l with
  | nil =>
    intro seen
    simp [dedupSeen, urlFinset]
  | cons a rest ih =>
    intro seen
    by_cases he : a.url = ""
    · have h : a.url = "" ∨ a.url ∈ seen := Or.inl he
      simp only [dedupSeen, if_pos h]
      rw [ih seen]
      have hfin : urlFinset (a :: rest) = urlFinset rest := by
        simp [urlFinset, he]
      rw [hfin]
    · have hfin : urlFinset (a :: rest) = insert a.url (urlFinset rest) := by
        simp [urlFinset, he]
      by_cases hs : a.url ∈ seen
      · have h : a.url = "" ∨ a.url ∈ seen := Or.inr hs
        simp only [dedupSeen, if_pos h]
        rw [ih seen, hfin]
        congr 1
        ext x
        simp only [Finset.mem_sdiff, Finset.mem_insert]
        constructor
        · rintro ⟨hx, hxs⟩
          exact ⟨Or.inr hx, hxs⟩
        · rintro ⟨hx | hx, hxs⟩
          · subst hx
            exact absurd (List.mem_toFinset.mpr hs) hxs
          · exact ⟨hx, hxs⟩
      · have h : ¬(a.url = "" ∨ a.url ∈ seen) := by
          intro hc
          rcases hc with hc | hc
          · exact he hc
          · exact hs hc
        simp only [dedupSeen, if_neg h, List.length_cons]
        rw [ih (a.url :: seen), hfin, List.toFinset_cons,
          card_insert_sdiff a.url (urlFinset rest) seen.toFinset
            (fun hc => hs (List.mem_toFinset.mp hc))]

/-! ### C7 -/

/-- C7: URL-based deduplication returns a sublist of its input (original
relative order and first-seen content preserved) whose members are exactly
the first occurrences of each URL key: each survivor is the first input item
bearing its (non-empty) URL, the surviving URLs are pairwise distinct, and a
URL survives exactly when it occurs non-empty in the input.  Consequently,
when the result sets of several queries overlap, the unique-source count of
their concatenation is the cardinality of the union of their URL sets, not
the sum of their sizes. -/
theorem dedupByUrl_spec (l a b : List Source) :
    List.Sublist (dedupByUrl l) l ∧
    (∀ s ∈ dedupByUrl l, l.find? (fun x => x.url == s.url) = some s ∧ s.url ≠ "") ∧
    ((dedupByUrl l).map Source.url).Nodup ∧
    (∀ u, u ∈ (dedupByUrl l).map Source.url ↔ (u ≠ "" ∧ u ∈ l.map Source.url)) ∧
    (dedupByUrl (a ++ b)).length = (urlFinset a ∪ urlFinset b).card := by
  refine ⟨dedupSeen_sublist l [], ?_, dedupSeen_nodup l [], ?_, ?_⟩
  · intro s hs
    obtain ⟨h1, _, h3⟩ := dedupSeen_mem_props l [] s hs
    exact ⟨h3, h1⟩
  · intro u
    rw [dedupByUrl, dedupSeen_mem_url l [] u]
    simp
  · rw [dedupByUrl, dedupSeen_length (a ++ b) []]
    have hfin : urlFinset (a ++ b) = urlFinset a ∪ urlFinset b := by
      simp [urlFinset, List.filter_append]
    rw [hfin]
    simp

/-- Witness for C7: in a list repeating the URL "u" and containing a URL-less
item, the survivor with URL "u" is the first occurrence, with its first-seen
title and content. -/
theorem dedupByUrl_spec_witness :
    ([⟨"u", "t1", "c1"⟩, ⟨"u", "t2", "c2"⟩, ⟨"", "t3", "c3"⟩, ⟨"v", "t4", "c4"⟩] :
        List Source).find? (fun x => x.url == Source.url ⟨"u", "t1", "c1"⟩) =
      some ⟨"u", "t1", "c1"⟩ ∧
    Source.url (⟨"u", "t1", "c1"⟩ : Source) ≠ "" := by
  exact (dedupByUrl_spec
      [⟨"u", "t1", "c1"⟩, ⟨"u", "t2", "c2"⟩, ⟨"", "t3", "c3"⟩, ⟨"v", "t4", "c4"⟩]
      [] []).2.1 ⟨"u", "t1", "c1"⟩ (by decide)

/-! ### C10 -/

/-- C10: every web-intel record the background task produces has at most 15
sources, each with a non-empty URL distinct from all others in the list
(URL-less items are dropped entirely), and `sourceCount` equals the number of
distinct non-empty URLs across all fulfilled searches — so `sourceCount` is
at least the length of the sources list, and exceeds it on inputs with more
than 15 distinct URLs. -/
theorem tavily_webintel_spec (idea : String) (settled : List (Settled SearchResponse)) :
    ((runSingleTavilyResearch idea settled).sources.length ≤ 15) ∧
    (∀ s ∈ (runSingleTavilyResearch idea settled).sources, s.url ≠ "") ∧
    (((runSingleTavilyResearch idea settled).sources.map Source.url).Nodup) ∧
    ((runSingleTavilyResearch idea settled).sourceCount =
      (urlFinset (fulfilledResults settled)).card) ∧
    ((runSingleTavilyResearch idea settled).sources.length ≤
      (runSingleTavilyResearch idea settled).sourceCount) ∧
    (∃ (idea2 : String) (settled2 : List (Settled SearchResponse)),
      (runSingleTavilyResearch idea2 settled2).sources.length <
        (runSingleTavilyResearch idea2 settled2).sourceCount) := by
  have hsrc : (runSingleTavilyResearch idea settled).sources =
      (dedupByUrl (fulfilledResults settled)).take 15 := rfl
  have hcnt : (runSingleTavilyResearch idea settled).sourceCount =
      (dedupByUrl (fulfilledResults settled)).length := rfl
  refine ⟨?_, ?_, ?_, ?_, ?_, ?_⟩
  · rw [hsrc, List.length_take]
    exact min_le_left _ _
  · intro s hs
    rw [hsrc] at hs
    have hmem : s ∈ dedupByUrl (fulfilledResults settled) :=
      (List.take_sublist 15 _).mem hs
    exact (dedupSeen_mem_props (fulfilledResults settled) [] s hmem).1
  · rw [hsrc, List.map_take]
    exact List.Nodup.sublist (List.take_sublist _ _)
      (dedupSeen_nodup (fulfilledResults settled) [])
  · rw [hcnt]
    unfold dedupByUrl
    rw [dedupSeen_length (fulfilledResults settled) []]
    simp
  · rw [hsrc, hcnt, List.length_take]
    exact min_le_right _ _
  · refine ⟨"i", [Settled.fulfilled
      { results :=
          [ ⟨"u01", "", ""⟩, ⟨"u02", "", ""⟩, ⟨"u03", "", ""⟩, ⟨"u04", "", ""⟩
          , ⟨"u05", "", ""⟩, ⟨"u06", "", ""⟩, ⟨"u07", "", ""⟩, ⟨"u08", "", ""⟩
          , ⟨"u09", "", ""⟩, ⟨"u10", "", ""⟩, ⟨"u11", "", ""⟩, ⟨"u12", "", ""⟩
          , ⟨"u13", "", ""⟩, ⟨"u14", "", ""⟩, ⟨"u15", "", ""⟩, ⟨"u16", "", ""⟩ ]
      , answer := "" }], ?_⟩
    decide

/-- Witness for C10: every source of a concrete degraded web-intel record has
a non-empty URL (here for a record with one fulfilled search). -/
theorem tavily_webintel_spec_witness :
    Source.url (⟨"https://a.example", "t", "c"⟩ : Source) ≠ "" := by
  exact (tavily_webintel_spec "i"
      [Settled.fulfilled { results := [⟨"https://a.example", "t", "c"⟩], answer := "" }]).2.1
    ⟨"https://a.example", "t", "c"⟩ (by decide)

/-! ### Extraction lemmas (for C8) -/

/-- A successful first-index search splits the input at the first hit. -/
theorem firstIdxFrom_decomp (p : Char → Bool) :
    ∀ (cs : List Char) (i : Nat), firstIdxFrom p cs = some i →
      ∃ pre c post, cs = pre ++ c :: post ∧ pre.length = i ∧ p c = true ∧
        ∀ x ∈ pre, p x = false := by
  intro cs
  induction cs with
  | nil =>
    intro i hi
    simp [firstIdxFrom] at hi
  | cons c rest ih =>
    intro i hi
    by_cases hp : p c
    · simp only [firstIdxFrom, if_pos hp] at hi
      refine ⟨[], c, rest, by simp, ?_, hp, by simp⟩
      simpa using hi
    · simp only [firstIdxFrom, if_neg hp] at hi
      rcases hmap : firstIdxFrom p rest with _ | j
      · rw [hmap] at hi
        simp at hi
      · rw [hmap] at hi
        simp only [Option.map_some', Option.some.injEq] at hi
        obtain ⟨pre, c', post, hcs, hlen, hpc, hall⟩ := ih j hmap
        refine ⟨c :: pre, c', post, by simp [hcs], by simp [hlen, ← hi], hpc, ?_⟩
        intro x hx
        rcases List.mem_cons.mp hx with rfl | hx
        · simpa [Bool.not_eq_true] using hp
        · exact hall x hx

/-- The greedy regex match decomposes the text as: a prefix with no opening
brace, then the matched span — which starts with an opening brace and ends
with a closing brace — then a suffix with no closing brace.  That is, the
match runs from the first opening brace to the last closing brace. -/
theorem matchBraceSpan_decomp (s m : String) (hm : matchBraceSpan s = some m) :
    ∃ pre post, s.data = pre ++ m.data ++ post ∧
      (∀ c ∈ pre, ¬ c = lbrace) ∧ (∀ c ∈ post, ¬ c = rbrace) ∧
      m.data.head? = some lbrace ∧ m.data.getLast? = some rbrace := by
  unfold matchBraceSpan at hm
  rcases hL : firstIdxFrom (fun c => c = lbrace) s.data with _ | i
  · rw [hL] at hm
    simp at hm
  rcases hR : firstIdxFrom (fun c => c = rbrace) s.data.reverse with _ | k
  · rw [hL, hR] at hm
    simp at hm
  rw [hL, hR] at hm
  simp only [Option.map_some'] at hm
  by_cases hij : i < s.data.length - 1 - k
  · rw [if_pos hij] at hm
    simp only [Option.some.injEq] at hm
    obtain ⟨preL, cL, postL, hcsL, hlenL, hpL, hallL⟩ :=
      firstIdxFrom_decomp (fun c => c = lbrace) s.data i hL
    obtain ⟨preR, cR, postR, hcsR, hlenR, hpR, hallR⟩ :=
      firstIdxFrom_decomp (fun c => c = rbrace) s.data.reverse k hR
    have hcL : cL = lbrace := of_decide_eq_true hpL
    have hcR : cR = rbrace := of_decide_eq_true hpR
    subst hcL
    subst hcR
    -- reverse the right decomposition
    have hcsR' : s.data = postR.reverse ++ rbrace :: preR.reverse := by
      have := congrArg List.reverse hcsR
      simpa [List.reverse_append] using this
    set j := s.data.length - 1 - k with hj
    set A := postR.reverse with hA
    set B := preR.reverse with hB
    have hBlen : B.length = k := by
      simp [hB, hlenR]
    have hlen : s.data.length = A.length + 1 + B.length := by
      rw [hcsR']
      simp [hA, hB]
      omega
    have hAlen : A.length = j := by
      omega
    -- the matched span
    have hmdata : m.data = (s.data.drop i).take (j - i + 1) := by
      rw [← hm]
    -- drop i exposes the first opening brace
    have hdropi : s.data.drop i = lbrace :: postL := by
      rw [hcsL, ← hlenL, List.drop_left]
    -- drop (j+1) is exactly the suffix after the last closing brace
    have hdropj : s.data.drop (j + 1) = B := by
      have : s.data = (A ++ [rbrace]) ++ B := by
        rw [hcsR']
        simp
      rw [this]
      have hlen2 : (A ++ [rbrace]).length = j + 1 := by
        simp [hAlen]
      rw [← hlen2, List.drop_left]
    have hsplit : m.data ++ B = s.data.drop i := by
      rw [hmdata, ← hdropj]
      have hdd : s.data.drop (j + 1) = (s.data.drop i).drop (j - i + 1) := by
        rw [List.drop_drop]
        congr 1
        omega
      rw [hdd]
      exact List.take_append_drop _ _
    have htakei : s.data.take i = preL := by
      rw [hcsL, ← hlenL, List.take_left]
    refine ⟨preL, B, ?_, ?_, ?_, ?_, ?_⟩
    · have := List.take_append_drop i s.data
      rw [htakei, ← hsplit] at this
      rw [← this]
      simp
    · intro x hx
      have := hallL x hx
      simpa using this
    · intro x hx
      have := hallR x (List.mem_reverse.mp (hB ▸ hx))
      simpa using this
    · rw [hmdata, hdropi]
      obtain ⟨n, hn⟩ : ∃ n, j - i + 1 = n + 1 := ⟨j - i, rfl⟩
      rw [hn, List.take_succ_cons]
      rfl
    · -- the span ends with the last closing brace
      have hdropi2 : s.data.drop i = A.drop i ++ (rbrace :: B) := by
        rw [hcsR', List.drop_append_eq_append_drop]
        congr 1
        have h0 : i - A.length = 0 := by omega
        rw [h0, List.drop_zero]
      have heq : m.data ++ B = (A.drop i ++ [rbrace]) ++ B := by
        rw [hsplit, hdropi2]
        simp
      have hlenm : m.data.length = (A.drop i ++ [rbrace]).length := by
        have h1 : m.data.length = j - i + 1 := by
          rw [hmdata, List.length_take, List.length_drop]
          omega
        rw [h1, List.length_append, List.length_drop, hAlen]
        simp
      have := (List.append_inj heq hlenm).1
      rw [this]
      exact List.getLast?_concat _
  · rw [if_neg hij] at hm
    simp at hm

/-! ### C8 -/

set_option maxRecDepth 32768 in
/-- Counterexample to C8 as stated: on a response holding two JSON objects
with prose between them, the greedy regex matches the whole span from the
first opening brace to the last closing brace, that span fails to parse, and
the stage falls back to the template plan — whereas the first balanced JSON
object found in the text parses fine, so the stage does not extract it. -/
theorem planQueries_extraction_counterexample :
    matchBraceSpan cexText = some cexText ∧
    planQueriesParse cexText "app" = fallbackQueries "app" ∧
    (firstBalancedObject cexText).bind jsonParseFlatObj = some [("a", "b")] ∧
    fallbackQueries "app" ≠ [("a", "b")] := by
  refine ⟨by decide, by decide, by decide, by decide⟩

/-- C8 amended: the query-planning stage extracts the greedy brace span of
the LLM text — the substring running from the first opening brace to the
last closing brace (the whole text when the regex has no match) — and
JSON-parses it: a successful parse becomes the query plan, and on extraction
or parse failure the plan equals the deterministic template-based fallback
derived solely from the idea string. -/
theorem planQueries_extraction_spec (resp idea : String) :
    (∀ obj, jsonParseFlatObj (spanCandidate resp) = some obj →
      planQueriesParse resp idea = obj) ∧
    (jsonParseFlatObj (spanCandidate resp) = none →
      planQueriesParse resp idea = fallbackQueries idea) ∧
    (∀ m, matchBraceSpan resp = some m → ∃ pre post,
      resp.data = pre ++ m.data ++ post ∧
      (∀ c ∈ pre, ¬ c = lbrace) ∧ (∀ c ∈ post, ¬ c = rbrace) ∧
      m.data.head? = some lbrace ∧ m.data.getLast? = some rbrace) := by
  refine ⟨?_, ?_, fun m hm => matchBraceSpan_decomp resp m hm⟩
  · intro obj hobj
    simp [planQueriesParse, hobj]
  · intro hnone
    simp [planQueriesParse, hnone]

set_option maxRecDepth 32768 in
/-- Witness for C8 (amended): a brace-free response falls back to the
template plan, and a pure JSON object response becomes the parsed plan. -/
theorem planQueries_extraction_spec_witness :
    planQueriesParse "no json here" "app" = fallbackQueries "app" ∧
    planQueriesParse "\x7b\"a\":\"b\"\x7d" "app" = [("a", "b")] :=
  ⟨(planQueries_extraction_spec "no json here" "app").2.1 (by decide),
   (planQueries_extraction_spec "\x7b\"a\":\"b\"\x7d" "app").1 [("a", "b")] (by decide)⟩
